import Mathlib

/-!
Verification of the CMS MA enrollment pipeline (`build_data.py`,
`dashboard.py`, `cms_ma_enrollment_rolling_24mo.py`).

The development shallowly embeds the data-processing core of the repository:
Python strings are Lean `String`s (the data in play is ASCII), pandas cells
are `Option String`, pandas numeric cells are a rational-plus-specials type
`PdNum` (`nan` models both missing values and float NaN, `pinf`/`ninf` model
the infinities produced by division by zero), and dataframes are lists of
records or `RawTable`s (a list of column names plus rows of optional cells).

Section 1: Python string primitives (`str.strip`, `str.title`, `str.upper`,
`str.lower`, substring search as used by the `re.search` calls in the code).
-/

def isAsciiLowerCh (c : Char) : Bool := 97 ≤ c.toNat && c.toNat ≤ 122

def isAsciiUpperCh (c : Char) : Bool := 65 ≤ c.toNat && c.toNat ≤ 90

def isAsciiAlphaCh (c : Char) : Bool := isAsciiUpperCh c || isAsciiLowerCh c

/-- ASCII uppercase conversion of one character (Python `str.upper` on the
ASCII data of this repository). -/
def asciiToUpper (c : Char) : Char :=
  if isAsciiLowerCh c then Char.ofNat (c.toNat - 32) else c

/-- ASCII lowercase conversion of one character. -/
def asciiToLower (c : Char) : Char :=
  if isAsciiUpperCh c then Char.ofNat (c.toNat + 32) else c

/-- The whitespace characters stripped by Python `str.strip()`. -/
def isPyWs (c : Char) : Bool :=
  c = ' ' || c = '\t' || c = '\n' || c = '\x0d' || c = '\x0b' || c = '\x0c'

theorem toNat_ofNat_small (n : Nat) (h : n < 55296) : (Char.ofNat n).toNat = n := by
  have hv : n.isValidChar := Or.inl h
  rw [Char.ofNat, dif_pos hv]
  have h2 : n < 4294967296 := Nat.lt_trans h (by norm_num)
  simp [Char.ofNatAux, Char.toNat, UInt32.toNat, UInt32.ofNat', Nat.mod_eq_of_lt h2]

theorem toNat_asciiToUpper (c : Char) :
    (asciiToUpper c).toNat = if 97 ≤ c.toNat ∧ c.toNat ≤ 122 then c.toNat - 32 else c.toNat := by
  rw [asciiToUpper, isAsciiLowerCh]
  by_cases h : 97 ≤ c.toNat ∧ c.toNat ≤ 122
  · rw [if_pos h]
    simp only [Bool.and_eq_true, decide_eq_true_eq, h, and_self, if_true]
    exact toNat_ofNat_small _ (by omega)
  · rw [if_neg h]
    simp only [Bool.and_eq_true, decide_eq_true_eq]
    rw [if_neg h]

theorem toNat_asciiToLower (c : Char) :
    (asciiToLower c).toNat = if 65 ≤ c.toNat ∧ c.toNat ≤ 90 then c.toNat + 32 else c.toNat := by
  rw [asciiToLower, isAsciiUpperCh]
  by_cases h : 65 ≤ c.toNat ∧ c.toNat ≤ 90
  · rw [if_pos h]
    simp only [Bool.and_eq_true, decide_eq_true_eq, h, and_self, if_true]
    exact toNat_ofNat_small _ (by omega)
  · rw [if_neg h]
    simp only [Bool.and_eq_true, decide_eq_true_eq]
    rw [if_neg h]

theorem charEq_of_toNat_eq {c d : Char} (h : c.toNat = d.toNat) : c = d := by
  apply Char.ext
  exact UInt32.toNat.inj h

theorem isAsciiAlphaCh_asciiToUpper (c : Char) :
    isAsciiAlphaCh (asciiToUpper c) = isAsciiAlphaCh c := by
  have h := toNat_asciiToUpper c
  rw [Bool.eq_iff_iff]
  simp only [isAsciiAlphaCh, isAsciiUpperCh, isAsciiLowerCh, Bool.or_eq_true,
    Bool.and_eq_true, decide_eq_true_eq]
  split at h <;> rw [h] <;> omega

theorem isAsciiAlphaCh_asciiToLower (c : Char) :
    isAsciiAlphaCh (asciiToLower c) = isAsciiAlphaCh c := by
  have h := toNat_asciiToLower c
  rw [Bool.eq_iff_iff]
  simp only [isAsciiAlphaCh, isAsciiUpperCh, isAsciiLowerCh, Bool.or_eq_true,
    Bool.and_eq_true, decide_eq_true_eq]
  split at h <;> rw [h] <;> omega

theorem asciiToUpper_asciiToUpper (c : Char) :
    asciiToUpper (asciiToUpper c) = asciiToUpper c := by
  apply charEq_of_toNat_eq
  have h2 := toNat_asciiToUpper (asciiToUpper c)
  have h1 := toNat_asciiToUpper c
  rw [h2]
  split at h1 <;> rw [h1] <;> split <;> omega

theorem asciiToLower_asciiToLower (c : Char) :
    asciiToLower (asciiToLower c) = asciiToLower c := by
  apply charEq_of_toNat_eq
  have h2 := toNat_asciiToLower (asciiToLower c)
  have h1 := toNat_asciiToLower c
  rw [h2]
  split at h1 <;> rw [h1] <;> split <;> omega

theorem asciiToUpper_asciiToLower (c : Char) :
    asciiToUpper (asciiToLower c) = asciiToUpper c := by
  apply charEq_of_toNat_eq
  have h2 := toNat_asciiToUpper (asciiToLower c)
  have h3 := toNat_asciiToUpper c
  have h1 := toNat_asciiToLower c
  rw [h2, h3]
  split at h1 <;> rw [h1] <;> split <;> split <;> omega

theorem asciiToLower_asciiToUpper (c : Char) :
    asciiToLower (asciiToUpper c) = asciiToLower c := by
  apply charEq_of_toNat_eq
  have h2 := toNat_asciiToLower (asciiToUpper c)
  have h3 := toNat_asciiToLower c
  have h1 := toNat_asciiToUpper c
  rw [h2, h3]
  split at h1 <;> rw [h1] <;> split <;> split <;> omega

theorem isPyWs_asciiToUpper (c : Char) : isPyWs (asciiToUpper c) = isPyWs c := by
  have h := toNat_asciiToUpper c
  rw [Bool.eq_iff_iff, isPyWs, isPyWs]
  have e : ∀ d : Char, ∀ x : Char, (d = x) = (d.toNat = x.toNat) := by
    intro d x
    apply propext
    exact ⟨fun hh => hh ▸ rfl, charEq_of_toNat_eq⟩
  simp only [Bool.or_eq_true, decide_eq_true_eq, e]
  have w1 : (' ' : Char).toNat = 32 := by decide
  have w2 : ('\t' : Char).toNat = 9 := by decide
  have w3 : ('\n' : Char).toNat = 10 := by decide
  have w4 : ('\x0d' : Char).toNat = 13 := by decide
  have w5 : ('\x0b' : Char).toNat = 11 := by decide
  have w6 : ('\x0c' : Char).toNat = 12 := by decide
  rw [w1, w2, w3, w4, w5, w6]
  split at h <;> rw [h] <;> omega

theorem isPyWs_asciiToLower (c : Char) : isPyWs (asciiToLower c) = isPyWs c := by
  have h := toNat_asciiToLower c
  rw [Bool.eq_iff_iff, isPyWs, isPyWs]
  have e : ∀ d : Char, ∀ x : Char, (d = x) = (d.toNat = x.toNat) := by
    intro d x
    apply propext
    exact ⟨fun hh => hh ▸ rfl, charEq_of_toNat_eq⟩
  simp only [Bool.or_eq_true, decide_eq_true_eq, e]
  have w1 : (' ' : Char).toNat = 32 := by decide
  have w2 : ('\t' : Char).toNat = 9 := by decide
  have w3 : ('\n' : Char).toNat = 10 := by decide
  have w4 : ('\x0d' : Char).toNat = 13 := by decide
  have w5 : ('\x0b' : Char).toNat = 11 := by decide
  have w6 : ('\x0c' : Char).toNat = 12 := by decide
  rw [w1, w2, w3, w4, w5, w6]
  split at h <;> rw [h] <;> omega

/-- Python `s.strip()` on the character list: drop ASCII whitespace from the
front, then from the back. -/
def stripList (l : List Char) : List Char :=
  List.rdropWhile isPyWs (List.dropWhile isPyWs l)

/-- One pass of Python `s.title()`: a letter that follows a non-letter is
upper-cased, a letter that follows a letter is lower-cased, other characters
pass through; the Bool records whether the previous character was a letter. -/
def titleAux : Bool → List Char → List Char
  | _, [] => []
  | prev, c :: l =>
    if isAsciiAlphaCh c then
      (if prev then asciiToLower c else asciiToUpper c) :: titleAux true l
    else
      c :: titleAux false l

/-- Python `s.strip()` (the data handled by the pipeline is ASCII). -/
def pyStrip (s : String) : String := String.mk (stripList s.data)

/-- Python `s.title()`. -/
def pyTitle (s : String) : String := String.mk (titleAux false s.data)

/-- Python `s.upper()`. -/
def pyUpper (s : String) : String := String.mk (s.data.map asciiToUpper)

/-- Python `s.lower()`. -/
def pyLower (s : String) : String := String.mk (s.data.map asciiToLower)

theorem map_isPyWs_titleAux : ∀ (b : Bool) (l : List Char),
    (titleAux b l).map isPyWs = l.map isPyWs := by
  intro b l
  induction l generalizing b with
  | nil => rfl
  | cons c t ih =>
    rw [titleAux]
    split
    · cases b <;>
        simp only [if_true, if_false, Bool.false_eq_true, List.map_cons, ih,
          isPyWs_asciiToLower, isPyWs_asciiToUpper]
    · simp only [List.map_cons, ih]

theorem titleAux_titleAux : ∀ (b : Bool) (l : List Char),
    titleAux b (titleAux b l) = titleAux b l := by
  intro b l
  induction l generalizing b with
  | nil => rfl
  | cons c t ih =>
    rw [titleAux]
    by_cases ha : isAsciiAlphaCh c
    · rw [if_pos ha]
      cases b
      · simp only [Bool.false_eq_true, if_false, titleAux, isAsciiAlphaCh_asciiToUpper, ha,
          if_true, asciiToUpper_asciiToUpper, ih]
      · simp only [if_true, titleAux, isAsciiAlphaCh_asciiToLower, ha,
          asciiToLower_asciiToLower, ih]
    · rw [if_neg ha]
      rw [titleAux, if_neg ha, ih]

theorem asciiToLower_eq_self_of_not_alpha (c : Char) (h : isAsciiAlphaCh c = false) :
    asciiToLower c = c := by
  rw [asciiToLower]
  rw [isAsciiAlphaCh, Bool.or_eq_false_iff] at h
  rw [h.1]
  simp

theorem titleAux_congr_lower : ∀ (b : Bool) (l1 l2 : List Char),
    l1.map asciiToLower = l2.map asciiToLower → titleAux b l1 = titleAux b l2 := by
  intro b l1
  induction l1 generalizing b with
  | nil =>
    intro l2 h
    cases l2 with
    | nil => rfl
    | cons c t => simp at h
  | cons c1 t1 ih =>
    intro l2 h
    cases l2 with
    | nil => simp at h
    | cons c2 t2 =>
      simp only [List.map_cons, List.cons.injEq] at h
      obtain ⟨hc, ht⟩ := h
      have halpha : isAsciiAlphaCh c1 = isAsciiAlphaCh c2 := by
        rw [← isAsciiAlphaCh_asciiToLower c1, hc, isAsciiAlphaCh_asciiToLower]
      have hupper : asciiToUpper c1 = asciiToUpper c2 := by
        rw [← asciiToUpper_asciiToLower c1, hc, asciiToUpper_asciiToLower]
      rw [titleAux, titleAux, ← halpha]
      by_cases ha : isAsciiAlphaCh c1
      · rw [if_pos ha, if_pos ha, ih true t2 ht, hc, hupper]
      · rw [if_neg ha, if_neg ha, ih false t2 ht]
        have ha2 : isAsciiAlphaCh c2 = false := by
          rw [← halpha]
          exact Bool.eq_false_iff.mpr ha
        have e1 : asciiToLower c1 = c1 :=
          asciiToLower_eq_self_of_not_alpha _ (Bool.eq_false_iff.mpr ha)
        have e2 : asciiToLower c2 = c2 := asciiToLower_eq_self_of_not_alpha _ ha2
        rw [← e1, hc, e2]

theorem isPyWs_getElem_eq_of_map_eq {t m : List Char}
    (hmap : t.map isPyWs = m.map isPyWs) (i : Nat) (hi : i < t.length) (hi2 : i < m.length) :
    isPyWs t[i] = isPyWs m[i] := by
  have h0 := congrArg (fun u => u[i]?) hmap
  simp only [List.getElem?_map] at h0
  rw [List.getElem?_eq_getElem hi, List.getElem?_eq_getElem hi2] at h0
  simp only [Option.map_some'] at h0
  exact Option.some.inj h0

/-- `stripList` output starts with a non-whitespace character. -/
theorem stripList_getElem_zero_not_ws (l : List Char) (h : 0 < (stripList l).length) :
    isPyWs (stripList l)[0] = false := by
  have hpre : stripList l <+: List.dropWhile isPyWs l := List.rdropWhile_prefix _ _
  have hlt : 0 < (List.dropWhile isPyWs l).length :=
    Nat.lt_of_lt_of_le h (List.IsPrefix.length_le hpre)
  have he : (stripList l)[0] = (List.dropWhile isPyWs l)[0] :=
    List.IsPrefix.getElem hpre h
  rw [he]
  have := List.dropWhile_get_zero_not isPyWs l hlt
  simpa using this

/-- `stripList` output ends with a non-whitespace character. -/
theorem stripList_getLast_not_ws (l : List Char) (h : stripList l ≠ []) :
    isPyWs ((stripList l).getLast h) = false := by
  have := List.rdropWhile_last_not isPyWs (List.dropWhile isPyWs l) h
  simpa using this

theorem stripList_titleAux_stripList (l : List Char) :
    stripList (titleAux false (stripList l)) = titleAux false (stripList l) := by
  have hmap : (titleAux false (stripList l)).map isPyWs = (stripList l).map isPyWs :=
    map_isPyWs_titleAux false (stripList l)
  have hlen : (titleAux false (stripList l)).length = (stripList l).length := by
    have := congrArg List.length hmap
    simpa using this
  rw [stripList]
  have hdrop : List.dropWhile isPyWs (titleAux false (stripList l)) =
      titleAux false (stripList l) := by
    rw [List.dropWhile_eq_self_iff]
    intro hl
    have hm : 0 < (stripList l).length := by omega
    have := isPyWs_getElem_eq_of_map_eq hmap 0 hl hm
    simp only [List.get_eq_getElem]
    rw [this, stripList_getElem_zero_not_ws l hm]
    simp
  rw [hdrop, List.rdropWhile_eq_self_iff]
  intro hl
  have hm : stripList l ≠ [] := by
    intro hx
    apply hl
    rw [hx]
    rfl
  have hlpos : 0 < (titleAux false (stripList l)).length := List.length_pos.mpr hl
  have hmpos : 0 < (stripList l).length := List.length_pos.mpr hm
  rw [List.getLast_eq_getElem]
  have hidx : (titleAux false (stripList l)).length - 1 < (stripList l).length := by omega
  have := isPyWs_getElem_eq_of_map_eq hmap ((titleAux false (stripList l)).length - 1)
    (by omega) hidx
  rw [this]
  have hgl := stripList_getLast_not_ws l hm
  rw [List.getLast_eq_getElem] at hgl
  have hsame : (titleAux false (stripList l)).length - 1 = (stripList l).length - 1 := by omega
  simp only [hsame]
  rw [hgl]
  simp

/-!
Section 2: substring tests (the `in` operator and the `re.search` patterns of
the code), a Python-dict lookup, and the pandas numeric model.
-/

/-- Python `pat in s` on character lists: contiguous-substring test. -/
def containsSub (pat : List Char) : List Char → Bool
  | [] => pat.isEmpty
  | c :: t => pat.isPrefixOf (c :: t) || containsSub pat t

/-- Remainder of the list after the leftmost occurrence of `pat`, if any. -/
def afterFirst (pat : List Char) : List Char → Option (List Char)
  | [] => if pat.isEmpty then some [] else none
  | c :: t =>
    if pat.isPrefixOf (c :: t) then some ((c :: t).drop pat.length)
    else afterFirst pat t

/-- Python `pat in s`. -/
def strContains (s pat : String) : Bool := containsSub pat.data s.data

/-- Python `s.endswith(pat)`, also the regex `pat$`. -/
def strEndsWith (s pat : String) : Bool := pat.data.isSuffixOf s.data

/-- Models `re.search(A.*(B1|…|Bk), s) ≠ None`: an occurrence of `A` followed,
at or after its end, by an occurrence of some `Bi`.  Testing only the leftmost
occurrence of `A` is equivalent, since an earlier `A` leaves a longer tail. -/
def searchSeq (s : String) (a : String) (alts : List String) : Bool :=
  match afterFirst a.data s.data with
  | some rest => alts.any fun b => containsSub b.data rest
  | none => false

/-- Python dict lookup (`d.get(k)` / `Series.map(d)`); the dict literals in
the code have pairwise-distinct keys, so first-match lookup is exact. -/
def alookup (k : String) : List (String × String) → Option String
  | [] => none
  | p :: t => if p.1 = k then some p.2 else alookup k t

/-- A pandas float cell: a rational value, NaN (which also models a missing
value, since pandas represents both identically), or an infinity as produced
by dividing a non-zero float by zero. -/
inductive PdNum where
  | val (q : ℚ)
  | nan
  | pinf
  | ninf
deriving DecidableEq

/-- `pd.isna` on a float cell. -/
def PdNum.isna : PdNum → Bool
  | .nan => true
  | _ => false

def PdNum.add : PdNum → PdNum → PdNum
  | .val a, .val b => .val (a + b)
  | .nan, _ => .nan
  | _, .nan => .nan
  | .pinf, .ninf => .nan
  | .ninf, .pinf => .nan
  | .pinf, _ => .pinf
  | _, .pinf => .pinf
  | .ninf, _ => .ninf
  | _, .ninf => .ninf

def PdNum.neg : PdNum → PdNum
  | .val a => .val (-a)
  | .nan => .nan
  | .pinf => .ninf
  | .ninf => .pinf

def PdNum.sub (a b : PdNum) : PdNum := a.add b.neg

/-- Multiplication by a non-zero rational constant (the `* 100` of the code). -/
def PdNum.scale (k : ℚ) : PdNum → PdNum
  | .val a => .val (a * k)
  | .nan => .nan
  | .pinf => if 0 < k then .pinf else if k < 0 then .ninf else .nan
  | .ninf => if 0 < k then .ninf else if k < 0 then .pinf else .nan

/-- IEEE-style division as performed by pandas: a non-zero value divided by
zero gives a signed infinity, zero by zero gives NaN. -/
def PdNum.div : PdNum → PdNum → PdNum
  | .val a, .val b =>
    if b = 0 then (if 0 < a then .pinf else if a < 0 then .ninf else .nan)
    else .val (a / b)
  | .nan, _ => .nan
  | _, .nan => .nan
  | .pinf, .val b => if 0 ≤ b then .pinf else .ninf
  | .ninf, .val b => if 0 ≤ b then .ninf else .pinf
  | .val _, .pinf => .val 0
  | .val _, .ninf => .val 0
  | _, _ => .nan

/-- pandas `Series.sum()` with the default `skipna=True`: NaN cells are
skipped, the empty sum is `0`. -/
def pdSum (l : List PdNum) : PdNum :=
  l.foldl (fun acc x => if x.isna then acc else PdNum.add acc x) (PdNum.val 0)

/-- numpy rounding: round half to even. -/
def roundHalfEven (q : ℚ) : ℤ :=
  let f := ⌊q⌋
  let r := q - (f : ℚ)
  if r < 1/2 then f else if 1/2 < r then f + 1 else (if f % 2 = 0 then f else f + 1)

/-- `Series.round(2)` on one cell. -/
def PdNum.round2 : PdNum → PdNum
  | .val q => .val ((roundHalfEven (q * 100) : ℚ) / 100)
  | x => x

def digitVal (c : Char) : Option Nat :=
  if 48 ≤ c.toNat ∧ c.toNat ≤ 57 then some (c.toNat - 48) else none

def parseDigitsAux : Nat → List Char → Option Nat
  | acc, [] => some acc
  | acc, c :: t =>
    match digitVal c with
    | some d => parseDigitsAux (acc * 10 + d) t
    | none => none

/-- A non-empty all-digit run, as a natural number. -/
def parseDigits (l : List Char) : Option Nat :=
  if l.isEmpty then none else parseDigitsAux 0 l

/-- Split a character list on a separator character (keeps empty fields). -/
def splitOnCh (sep : Char) : List Char → List (List Char)
  | [] => [[]]
  | c :: t =>
    let r := splitOnCh sep t
    if c = sep then [] :: r
    else
      match r with
      | [] => [[c]]
      | h :: t2 => (c :: h) :: t2

/-- `digits`, `digits.digits`, `.digits` or `digits.` — the decimal part of a
float literal, as an exact rational. -/
def parseMantissa (l : List Char) : Option ℚ :=
  match splitOnCh '.' l with
  | [d] => (parseDigits d).map fun n => (n : ℚ)
  | [a, b] =>
    if a.isEmpty && b.isEmpty then none
    else
      match parseDigitsAux 0 (a ++ b) with
      | some n => if (a ++ b).isEmpty then none else some ((n : ℚ) / 10 ^ b.length)
      | none => none
  | _ => none

/-- Exponent part: optional sign plus a digit run. -/
def parseExp (l : List Char) : Option ℤ :=
  match l with
  | '+' :: t => (parseDigits t).map fun n => (n : ℤ)
  | '-' :: t => (parseDigits t).map fun n => -(n : ℤ)
  | t => (parseDigits t).map fun n => (n : ℤ)

/-- Unsigned float literal with optional exponent (input already lower-cased). -/
def parseUnsigned (l : List Char) : Option ℚ :=
  match splitOnCh 'e' l with
  | [m] => parseMantissa m
  | [m, e] =>
    match parseMantissa m, parseExp e with
    | some q, some z => some (q * (10 : ℚ) ^ z)
    | _, _ => none
  | _ => none

def toNumericCore (u : List Char) (negate : Bool) : PdNum :=
  if u = "inf".data ∨ u = "infinity".data then (if negate then .ninf else .pinf)
  else
    match parseUnsigned u with
    | some q => .val (if negate then -q else q)
    | none => .nan

/-- Embedding of `pd.to_numeric(s, errors="coerce")` on one cell: float
literals (sign, decimal point, exponent, infinities, case-insensitive) parse
to their exact value; every other string — including the textual "nan" that
`astype(str)` gives a missing cell — coerces to NaN. -/
def toNumeric (s : String) : PdNum :=
  match s.data.map asciiToLower with
  | '+' :: t => toNumericCore t false
  | '-' :: t => toNumericCore t true
  | t => toNumericCore t false

/-!
Section 3: the domain functions of the repository.
-/

/-- The `PARENT_ORG_CONSOLIDATION` dict (dashboard.py lines 293-339,
identical in build_data.py lines 41-77). -/
def PARENT_ORG_CONSOLIDATION : List (String × String) :=
  [("Unitedhealthcare", "UnitedHealth Group"),
   ("Unitedhealth Group", "UnitedHealth Group"),
   ("United Healthcare", "UnitedHealth Group"),
   ("United Health Care", "UnitedHealth Group"),
   ("Aarp/Unitedhealthcare", "UnitedHealth Group"),
   ("Ovations", "UnitedHealth Group"),
   ("Pacificare", "UnitedHealth Group"),
   ("Sierra Health And Life", "UnitedHealth Group"),
   ("Americhoice", "UnitedHealth Group"),
   ("Cvs Health Corporation", "CVS Health / Aetna"),
   ("Aetna", "CVS Health / Aetna"),
   ("Cvs Health", "CVS Health / Aetna"),
   ("Aetna Inc.", "CVS Health / Aetna"),
   ("Humana", "Humana"),
   ("Humana Inc.", "Humana"),
   ("Humana Inc", "Humana"),
   ("Elevance Health", "Elevance Health"),
   ("Anthem", "Elevance Health"),
   ("Anthem, Inc.", "Elevance Health"),
   ("Anthem Inc", "Elevance Health"),
   ("Centene Corporation", "Centene"),
   ("Centene", "Centene"),
   ("Wellcare", "Centene"),
   ("Wellcare Health Plans", "Centene"),
   ("Kaiser Foundation Health Plan", "Kaiser Permanente"),
   ("Kaiser Foundation Health Plan, Inc", "Kaiser Permanente"),
   ("Kaiser", "Kaiser Permanente"),
   ("Cigna", "Cigna"),
   ("Cigna Corporation", "Cigna"),
   ("Cigna Healthcare", "Cigna"),
   ("Cigna-Healthspring", "Cigna"),
   ("Molina Healthcare", "Molina Healthcare"),
   ("Molina Healthcare, Inc", "Molina Healthcare"),
   ("Scan Health Plan", "SCAN Health Plan"),
   ("Upmc Health Plan", "UPMC Health Plan")]

/-- dashboard.consolidate_parent_org (lines 341-345), applied cell-wise (the
same title-case + map + fillna pipeline is inlined in
build_data.load_plan_directory lines 180-182): trim and title-case, look up
in the consolidation table, pass through unchanged when absent. -/
def consolidate_parent_org (s : String) : String :=
  let title := pyTitle (pyStrip s)
  (alookup title PARENT_ORG_CONSOLIDATION).getD title

/-- `CONTRACT_TYPE_MAP` (dashboard.py lines 348-354, build_data.py 79-85). -/
def CONTRACT_TYPE_MAP : List (String × String) :=
  [("H", "Local MA / HMO / Cost / PACE"),
   ("R", "Regional PPO"),
   ("S", "Standalone PDP"),
   ("E", "Employer / Union Direct"),
   ("9", "Other / Demo")]

/-- `Series.astype(str)` on one cell: a missing value becomes the string
"nan" (read_csv with dtype=str stores missing fields as float NaN). -/
def astypeStr : Option String → String
  | none => "nan"
  | some s => s

/-- dashboard.derive_contract_type (lines 356-359), identical inline in
build_data.main lines 284-286:
`series.astype(str).str.strip().str.upper().str[0]` mapped through
`CONTRACT_TYPE_MAP` with `.fillna("Other")`.  `.str[0]` of an empty string is
NaN, which the `fillna` also sends to "Other". -/
def derive_contract_type (cid : Option String) : String :=
  match (pyUpper (pyStrip (astypeStr cid))).data with
  | [] => "Other"
  | c :: _ => (alookup (String.mk [c]) CONTRACT_TYPE_MAP).getD "Other"

def isUpperDigitCh (c : Char) : Bool :=
  (65 ≤ c.toNat && c.toNat ≤ 90) || (48 ≤ c.toNat && c.toNat ≤ 57)

/-- dashboard.clean_contract_id (line 437) / build_data lines 179 and 275:
`astype(str).str.strip().str.upper().str.replace(r"[^A-Z0-9]", "", regex=True)`. -/
def clean_contract_id (s : String) : String :=
  String.mk ((pyUpper (pyStrip s)).data.filter isUpperDigitCh)

/-- One raw row of the MA Plan Directory after column-role detection:
the contract-id and parent-organization cells. -/
structure DirEntry where
  contract_id : Option String
  parent_organization : Option String
deriving DecidableEq

/-- pandas `drop_duplicates(subset=["CONTRACT_ID"])`: first occurrence of
each raw contract-id value wins. -/
def dedupDirAux (seen : List (Option String)) : List DirEntry → List DirEntry
  | [] => []
  | e :: t =>
    if e.contract_id ∈ seen then dedupDirAux seen t
    else e :: dedupDirAux (e.contract_id :: seen) t

/-- build_data.load_plan_directory lines 176-182: drop rows with a missing
contract id, deduplicate on the RAW contract id, and only then normalize the
id (strip/upper/strip-punctuation) and consolidate the parent name.  The
resulting association list is the join side of the merge. -/
def plan_dir_lookup (entries : List DirEntry) : List (String × String) :=
  let kept := entries.filter fun e => e.contract_id.isSome
  let deduped := dedupDirAux [] kept
  deduped.map fun e =>
    (clean_contract_id (astypeStr e.contract_id),
     consolidate_parent_org (astypeStr e.parent_organization))

/-- One normalized enrollment row entering the join of build_data.main. -/
structure ERow where
  report_period : String
  enrollment : PdNum
  contract_id : Option String
deriving DecidableEq

/-- One row of the combined (joined) dataset. -/
structure CRow where
  report_period : String
  enrollment : PdNum
  contract_id : Option String
  parent_organization : Option String
  contract_type : String
deriving DecidableEq

/-- pandas `merge(..., on="CONTRACT_ID", how="left")`, per left row: every
lookup row with an equal key joins (duplicate lookup keys multiply the left
row); an unmatched left row survives once with a null parent. -/
def leftMergeRow (lookup : List (String × String)) (cid : String) : List (Option String) :=
  match lookup.filter (fun p => p.1 = cid) with
  | [] => [none]
  | ms => ms.map fun p => some p.2

/-- build_data.main steps 2-3 (lines 272-286), for runs whose combined table
has a CONTRACT_ID column and whose directory carries no PLAN_TYPE_DIR column
(the directory modelled here keeps only id and parent, so the >50%-populated
plan-type branch is never taken and CONTRACT_TYPE always comes from the
first-character code table).  An empty directory (`plan_dir.empty`) skips the
join entirely. -/
def buildCombined (rows : List ERow) (planDir : List (String × String)) : List CRow :=
  if planDir.isEmpty then
    rows.map fun r =>
      { report_period := r.report_period, enrollment := r.enrollment,
        contract_id := r.contract_id, parent_organization := none,
        contract_type := derive_contract_type r.contract_id }
  else
    rows.bind fun r =>
      let cid := clean_contract_id (astypeStr r.contract_id)
      (leftMergeRow planDir cid).map fun par =>
        { report_period := r.report_period, enrollment := r.enrollment,
          contract_id := some cid, parent_organization := par,
          contract_type := derive_contract_type (some cid) }

/-- The suppression resolution of build_data.normalise lines 238-243 and
dashboard.download_period lines 263-269:
    raw = col.astype(str).str.strip()
    numeric = pd.to_numeric(raw, errors="coerce")
    suppressed = numeric.isna() & raw.notna() & (raw != "") & (raw.str.lower() != "nan")
    numeric[suppressed] = 5
applied to one cell.  After `astype(str)` the `raw.notna()` conjunct is
identically true. -/
def resolveEnrollment (cell : Option String) : PdNum :=
  let raw := pyStrip (astypeStr cell)
  let numeric := toNumeric raw
  if numeric.isna && !(raw == "") && !(pyLower raw == "nan") then PdNum.val 5
  else numeric

/-- A raw tabular file as parsed by `read_csv(dtype=str)`: source-native
column names plus string-typed cells (a missing/empty field is `none`).  The
model assumes the distinct column names that `read_csv` guarantees (it
mangles duplicate headers). -/
structure RawTable where
  cols : List String
  cells : List (List (Option String))
deriving DecidableEq

/-- A cell of a normalized table: still a string, or the numeric enrollment. -/
inductive Cell where
  | str (s : Option String)
  | num (x : PdNum)
deriving DecidableEq

/-- A normalized per-period table: the kept canonical columns and their cells. -/
structure NormTable where
  cols : List String
  cells : List (List Cell)
deriving DecidableEq

/-- One step of the rename-dict construction of build_data.normalise lines
219-234: the if/elif chain over one column name, each branch guarded by its
target role being unclaimed (`... not in rename.values()`). -/
def renameStep (ren : List (String × String)) (col : String) : List (String × String) :=
  if col = "REPORT_PERIOD" then ren
  else if strContains col "STATE" && !(strContains col "FIPS")
      && !((ren.map Prod.snd).contains "STATE") then ren ++ [(col, "STATE")]
  else if strContains col "COUNTY" && !(strContains col "FIPS") && !(strContains col "STATE")
      && !((ren.map Prod.snd).contains "COUNTY") then ren ++ [(col, "COUNTY")]
  else if searchSeq col "CONTRACT" ["NUMBER", "ID", "NBR", "NUM"]
      && !((ren.map Prod.snd).contains "CONTRACT_ID") then ren ++ [(col, "CONTRACT_ID")]
  else if (searchSeq col "CONTRACT" ["NAME", "NM"] || searchSeq col "ORG" ["NAME", "NM"])
      && !((ren.map Prod.snd).contains "CONTRACT_NAME") then ren ++ [(col, "CONTRACT_NAME")]
  else if col = "ENROLLED" && !((ren.map Prod.snd).contains "ENROLLMENT") then
    ren ++ [(col, "ENROLLMENT")]
  else if strContains col "ENROLL" && !(strContains col "REPORT")
      && !((ren.map Prod.snd).contains "ENROLLMENT") then ren ++ [(col, "ENROLLMENT")]
  else ren

def renameMap (cols : List String) : List (String × String) :=
  cols.foldl renameStep []

/-- The columns that build_data.normalise keeps (lines 245-248). -/
def keepCols (cols : List String) : List String :=
  ["REPORT_PERIOD", "ENROLLMENT"]
    ++ (["STATE", "COUNTY", "CONTRACT_ID", "CONTRACT_NAME"].filter fun c => cols.contains c)

/-- Embedding of build_data.normalise (lines 217-249): rename columns by the
inferred roles, insert REPORT_PERIOD at the front, resolve the enrollment
column through the suppression rule when present, then select the `keep`
columns — `df[keep]`, which raises a KeyError when a requested column (in
particular "ENROLLMENT") does not exist. -/
def normalise (tbl : RawTable) (period : String) : Except String NormTable :=
  let ren := renameMap tbl.cols
  let cols1 := "REPORT_PERIOD" :: tbl.cols.map fun c => (alookup c ren).getD c
  let rows1 : List (List Cell) :=
    tbl.cells.map fun r => Cell.str (some period) :: r.map Cell.str
  let rows2 : List (List Cell) :=
    match cols1.findIdx? (fun c => c = "ENROLLMENT") with
    | none => rows1
    | some i =>
      rows1.map fun r =>
        r.mapIdx fun j x =>
          if j = i then
            match x with
            | Cell.str s => Cell.num (resolveEnrollment s)
            | other => other
          else x
  let keep := keepCols cols1
  if keep.all (fun k => cols1.contains k) then
    Except.ok
      { cols := keep,
        cells := rows2.map fun r =>
          keep.map fun k =>
            match cols1.findIdx? (fun c => c = k) with
            | some i => r.getD i (Cell.str none)
            | none => Cell.str none }
  else Except.error "KeyError"

/-- SKIP_RE `(read_?me|readme|__macosx|\.ds_store)`, case-insensitive
(build_data line 38). -/
def skipRe (n : String) : Bool :=
  strContains (pyLower n) "readme" || strContains (pyLower n) "read_me"
    || strContains (pyLower n) "__macosx" || strContains (pyLower n) ".ds_store"

/-- The `\.(csv|txt)$` member-extension test, case-insensitive. -/
def dataExtRe (n : String) : Bool :=
  strEndsWith (pyLower n) ".csv" || strEndsWith (pyLower n) ".txt"

/-- DATA_RE `(scc|enrollment|enroll|ma_|plan_dir|directory)`, case-insensitive
(build_data line 39). -/
def dataRe (n : String) : Bool :=
  strContains (pyLower n) "scc" || strContains (pyLower n) "enrollment"
    || strContains (pyLower n) "enroll" || strContains (pyLower n) "ma_"
    || strContains (pyLower n) "plan_dir" || strContains (pyLower n) "directory"

/-- The primary candidate pass of build_data._fetch_zip_df lines 97-99. -/
def primaryCandidates (names : List String) : List String :=
  names.filter fun n => dataExtRe n && !(skipRe n) && !(strEndsWith n "/")

/-- The relaxed fallback pass, lines 100-103: only names containing "read"
are excluded. -/
def fallbackCandidates (names : List String) : List String :=
  names.filter fun n => dataExtRe n && !(strEndsWith n "/") && !(strContains (pyLower n) "read")

/-- build_data._fetch_zip_df member selection (lines 96-107, identical in
dashboard lines 62-80): primary filter, fallback filter when it is empty,
None when both are, then the first DATA_RE-preferred candidate or the first
candidate in archive order. -/
def selectDataFile (names : List String) : Option String :=
  let candidates :=
    if (primaryCandidates names).isEmpty then fallbackCandidates names
    else primaryCandidates names
  if candidates.isEmpty then none
  else
    match candidates.filter dataRe with
    | [] => candidates.head?
    | p :: _ => some p

/-- The three encodings tried by the decoder loop, in priority order. -/
inductive Enc where
  | utf8sig
  | latin1
  | cp1252
deriving DecidableEq

/-- Windows-1252: bytes 0x81, 0x8D, 0x8F, 0x90, 0x9D are undefined (a strict
Python decode raises there); 0x80-0x9F otherwise map into punctuation and
symbol codepoints; every other byte maps to itself. -/
def cp1252Map (b : Nat) : Option Nat :=
  if b = 129 || b = 141 || b = 143 || b = 144 || b = 157 then none
  else if b < 128 || (160 ≤ b && b ≤ 255) then some b
  else if 255 < b then none
  else some (
    match b with
    | 128 => 8364
    | 130 => 8218
    | 131 => 402
    | 132 => 8222
    | 133 => 8230
    | 134 => 8224
    | 135 => 8225
    | 136 => 710
    | 137 => 8240
    | 138 => 352
    | 139 => 8249
    | 140 => 338
    | 142 => 381
    | 145 => 8216
    | 146 => 8217
    | 147 => 8220
    | 148 => 8221
    | 149 => 8226
    | 150 => 8211
    | 151 => 8212
    | 152 => 732
    | 153 => 8482
    | 154 => 353
    | 155 => 8250
    | 156 => 339
    | 158 => 382
    | _ => 376)

/-- Strict UTF-8 decoding of a byte list (rejecting overlong forms,
surrogates and out-of-range codepoints, as Python's utf-8 codec does). -/
def utf8DecodeAux : List Nat → Option (List Char)
  | [] => some []
  | b :: t =>
    if b ≤ 127 then (utf8DecodeAux t).map fun r => Char.ofNat b :: r
    else if 194 ≤ b ∧ b ≤ 223 then
      match t with
      | c1 :: t1 =>
        if 128 ≤ c1 ∧ c1 ≤ 191 then
          (utf8DecodeAux t1).map fun r => Char.ofNat ((b - 192) * 64 + (c1 - 128)) :: r
        else none
      | [] => none
    else if 224 ≤ b ∧ b ≤ 239 then
      match t with
      | c1 :: c2 :: t2 =>
        if 128 ≤ c1 ∧ c1 ≤ 191 ∧ 128 ≤ c2 ∧ c2 ≤ 191 then
          if 2048 ≤ (b - 224) * 4096 + (c1 - 128) * 64 + (c2 - 128) ∧
              ¬(55296 ≤ (b - 224) * 4096 + (c1 - 128) * 64 + (c2 - 128) ∧
                (b - 224) * 4096 + (c1 - 128) * 64 + (c2 - 128) ≤ 57343) then
            (utf8DecodeAux t2).map fun r =>
              Char.ofNat ((b - 224) * 4096 + (c1 - 128) * 64 + (c2 - 128)) :: r
          else none
        else none
      | _ => none
    else if 240 ≤ b ∧ b ≤ 244 then
      match t with
      | c1 :: c2 :: c3 :: t3 =>
        if 128 ≤ c1 ∧ c1 ≤ 191 ∧ 128 ≤ c2 ∧ c2 ≤ 191 ∧ 128 ≤ c3 ∧ c3 ≤ 191 then
          if 65536 ≤ (b - 240) * 262144 + (c1 - 128) * 4096 + (c2 - 128) * 64 + (c3 - 128) ∧
              (b - 240) * 262144 + (c1 - 128) * 4096 + (c2 - 128) * 64 + (c3 - 128) ≤ 1114111 then
            (utf8DecodeAux t3).map fun r =>
              Char.ofNat ((b - 240) * 262144 + (c1 - 128) * 4096 + (c2 - 128) * 64 + (c3 - 128)) :: r
          else none
        else none
      | _ => none
    else none

/-- Python's "utf-8-sig": strip one leading byte-order mark, then UTF-8. -/
def utf8sigDecode (bs : List Nat) : Option (List Char) :=
  match bs with
  | 239 :: 187 :: 191 :: t => utf8DecodeAux t
  | t => utf8DecodeAux t

/-- Latin-1 maps every byte to the same codepoint; it never fails. -/
def latin1Decode (bs : List Nat) : Option (List Char) :=
  bs.mapM fun b => if b ≤ 255 then some (Char.ofNat b) else none

def cp1252Decode (bs : List Nat) : Option (List Char) :=
  bs.mapM fun b => (cp1252Map b).map Char.ofNat

def decodeBytes : Enc → List Nat → Option (List Char)
  | .utf8sig, bs => utf8sigDecode bs
  | .latin1, bs => latin1Decode bs
  | .cp1252, bs => cp1252Decode bs

/-- A parsed delimiter-separated table, before column-name normalization. -/
structure ParsedCsv where
  header : List String
  rows : List (List String)
deriving DecidableEq

/-- `pd.read_csv(dtype=str, sep=sep)` on decoded text, simplified to the
unquoted tabular shape of the CMS files: split lines on newline (ignoring a
trailing newline), fields on the separator; empty input is an error
(EmptyDataError) and a row with more fields than the header is a ParserError
(the C tokenizer's "saw more fields" failure). -/
def parseCsv (chars : List Char) (sep : Char) : Option ParsedCsv :=
  let ls0 := splitOnCh '\n' chars
  let ls := if ls0.getLast? = some [] then ls0.dropLast else ls0
  match ls with
  | [] => none
  | h :: rest =>
    let header := (splitOnCh sep h).map String.mk
    let rows := rest.map fun r => (splitOnCh sep r).map String.mk
    if rows.any (fun r => header.length < r.length) then none
    else some { header := header, rows := rows }

/-- `c.strip().upper().replace(" ", "_")` (build_data line 117). -/
def normalizeCol (c : String) : String :=
  String.mk ((pyUpper (pyStrip c)).data.map fun ch => if ch = ' ' then '_' else ch)

/-- One loop-body attempt of build_data._fetch_zip_df lines 111-121: decode
with the encoding, parse with the separator, and accept only a table with at
least two columns (`df.shape[1] >= 2`). -/
def attemptCombo (bs : List Nat) (enc : Enc) (sep : Char) : Option ParsedCsv :=
  match decodeBytes enc bs with
  | none => none
  | some chars =>
    match parseCsv chars sep with
    | none => none
    | some t => if 2 ≤ t.header.length then some t else none

def encOrder : List Enc := [.utf8sig, .latin1, .cp1252]

def sepOrder : List Char := [',', '\t', '|']

/-- The nine (encoding, separator) combinations in the nested-loop order of
build_data lines 111-112. -/
def comboOrder : List (Enc × Char) := encOrder.bind fun e => sepOrder.map fun s => (e, s)

def fetchLoop (bs : List Nat) : List (Enc × Char) → Option (Enc × Char × ParsedCsv)
  | [] => none
  | c :: rest =>
    match attemptCombo bs c.1 c.2 with
    | some t => some (c.1, c.2, t)
    | none => fetchLoop bs rest

/-- The decode loop of build_data._fetch_zip_df lines 111-121 (the same loop
appears in dashboard lines 84-102 and download_and_read lines 192-219),
returning which encoding/separator pair succeeded together with the parsed
table, its column names normalized as on line 117. -/
def fetchZipDfLoop (bs : List Nat) : Option (Enc × Char × ParsedCsv) :=
  (fetchLoop bs comboOrder).map fun r =>
    (r.1, r.2.1, { header := r.2.2.header.map normalizeCol, rows := r.2.2.rows })

/-- Python truthiness of the `previous_enroll` value in dashboard lines
662-663: `None` and the float `0.0` are falsy; any other float (including
NaN and the infinities) is truthy. -/
def pdTruthy : Option PdNum → Bool
  | none => false
  | some (.val q) => !decide (q = 0)
  | some _ => true

/-- `filtered[filtered["REPORT_PERIOD"] == p]["ENROLLMENT"].sum()`. -/
def enrollSumForPeriod (rows : List CRow) (p : String) : PdNum :=
  pdSum ((rows.filter fun r => r.report_period = p).map fun r => r.enrollment)

/-- dashboard line 658-661: the baseline sum, or None without a baseline
period. -/
def kpiPreviousEnroll (rows : List CRow) : Option String → Option PdNum
  | none => none
  | some p => some (enrollSumForPeriod rows p)

/-- dashboard line 662: `mom_delta = (latest_enroll - previous_enroll) if
previous_enroll else None`. -/
def kpiMomDelta (rows : List CRow) (latest : String) (prevp : Option String) : Option PdNum :=
  let pe := kpiPreviousEnroll rows prevp
  if pdTruthy pe then some (PdNum.sub (enrollSumForPeriod rows latest) (pe.getD .nan))
  else none

/-- dashboard line 663: `mom_pct = (mom_delta / previous_enroll * 100) if
previous_enroll else None`. -/
def kpiMomPct (rows : List CRow) (latest : String) (prevp : Option String) : Option PdNum :=
  let pe := kpiPreviousEnroll rows prevp
  if pdTruthy pe then
    some (PdNum.scale 100 (PdNum.div ((kpiMomDelta rows latest prevp).getD .nan) (pe.getD .nan)))
  else none

/-- One row of the Period-over-Period comparison table. -/
structure MomRow where
  key : String
  previous : PdNum
  current : PdNum
  change : PdNum
  change_pct : PdNum
deriving DecidableEq

/-- The group keys occurring in the dataset under the chosen grouping column
(pandas groupby drops null keys); index order is immaterial to the properties
stated below. -/
def groupKeys (rows : List CRow) (g : CRow → Option String) : List String :=
  (rows.filterMap g).dedup

/-- The groupby sum of group `k` in period `p`: `none` when the group is
absent from that period's index (alignment later leaves NaN there). -/
def groupSum (rows : List CRow) (g : CRow → Option String) (p k : String) : Option PdNum :=
  let sel := rows.filter fun r => r.report_period = p && g r = some k
  if sel.isEmpty then none else some (pdSum (sel.map fun r => r.enrollment))

/-- dashboard lines 778-783 (Period-over-Period tab):
    curr = ...groupby(g)["ENROLLMENT"].sum() for the current period
    prev = ... for the baseline period
    mom  = pd.DataFrame({"CURRENT": curr, "PREVIOUS": prev}).dropna()
    mom["CHANGE"]   = mom["CURRENT"] - mom["PREVIOUS"]
    mom["CHANGE_%"] = (mom["CHANGE"] / mom["PREVIOUS"] * 100).round(2)
`dropna` keeps a group only if both aligned sums exist and neither is NaN. -/
def momTable (rows : List CRow) (g : CRow → Option String) (latest previous : String) :
    List MomRow :=
  (groupKeys rows g).filterMap fun k =>
    match groupSum rows g latest k, groupSum rows g previous k with
    | some c, some p =>
      if c.isna || p.isna then none
      else
        some { key := k, previous := p, current := c, change := PdNum.sub c p,
               change_pct := (PdNum.scale 100 (PdNum.div (PdNum.sub c p) p)).round2 }
    | _, _ => none

/-!
Section 4: theorems about the claims.
-/

set_option maxRecDepth 4000

theorem alookup_mem {k v : String} : ∀ {l : List (String × String)},
    alookup k l = some v → (k, v) ∈ l := by
  intro l
  induction l with
  | nil => intro h; simp [alookup] at h
  | cons p t ih =>
    intro h
    rw [alookup] at h
    split at h
    · rename_i hpk
      rw [Option.some.injEq] at h
      have : p = (k, v) := by
        rw [← hpk, ← h]
      rw [← this]
      exact List.mem_cons_self p t
    · exact List.mem_cons_of_mem _ (ih h)

theorem alookup_of_mem_nodup {k v : String} : ∀ {l : List (String × String)},
    (l.map Prod.fst).Nodup → (k, v) ∈ l → alookup k l = some v := by
  intro l
  induction l with
  | nil => intro _ h; simp at h
  | cons p t ih =>
    intro hnd hm
    rw [List.map_cons, List.nodup_cons] at hnd
    rw [List.mem_cons] at hm
    rw [alookup]
    rcases hm with hm | hm
    · rw [← hm]
      simp
    · have hk : p.1 ≠ k := by
        intro hcontra
        apply hnd.1
        rw [hcontra]
        exact List.mem_map_of_mem Prod.fst hm
      rw [if_neg hk]
      exact ih hnd.2 hm

theorem pyStrip_pyTitle_pyStrip (s : String) :
    pyStrip (pyTitle (pyStrip s)) = pyTitle (pyStrip s) := by
  show String.mk (stripList (titleAux false (stripList s.data)))
      = String.mk (titleAux false (stripList s.data))
  rw [stripList_titleAux_stripList]

theorem pyTitle_pyTitle_pyStrip (s : String) :
    pyTitle (pyTitle (pyStrip s)) = pyTitle (pyStrip s) := by
  show String.mk (titleAux false (titleAux false (stripList s.data)))
      = String.mk (titleAux false (stripList s.data))
  rw [titleAux_titleAux]

theorem consolidate_parent_org_def (x : String) :
    consolidate_parent_org x =
      (alookup (pyTitle (pyStrip x)) PARENT_ORG_CONSOLIDATION).getD (pyTitle (pyStrip x)) := rfl

/-- C3, counterexample: the Organization Consolidator is NOT idempotent.
`consolidate_parent_org "Aetna" = "CVS Health / Aetna"`, but applying it
again title-cases the canonical name to "Cvs Health / Aetna", which is not a
key of the consolidation table, so the second application returns
"Cvs Health / Aetna" ≠ "CVS Health / Aetna". -/
theorem C3_consolidator_counterexample :
    consolidate_parent_org (consolidate_parent_org "Aetna") ≠ consolidate_parent_org "Aetna" ∧
    consolidate_parent_org "Aetna" = "CVS Health / Aetna" ∧
    consolidate_parent_org (consolidate_parent_org "Aetna") = "Cvs Health / Aetna" := by
  refine ⟨?_, by decide, by decide⟩
  decide

/-- C3, amended: the Organization Consolidator is idempotent at every input
whose first application does not yield the canonical name
"CVS Health / Aetna" (the one canonical name that is not a fixed point,
because its title-cased form "Cvs Health / Aetna" is not a key of the
table); and for every entry of the consolidation table, every input
differing from the key only in letter casing or in leading/trailing
whitespace maps to that entry's canonical name. -/
theorem C3_consolidator_amended :
    (∀ s : String, consolidate_parent_org s ≠ "CVS Health / Aetna" →
      consolidate_parent_org (consolidate_parent_org s) = consolidate_parent_org s) ∧
    (∀ (s : String) (kv : String × String), kv ∈ PARENT_ORG_CONSOLIDATION →
      (stripList s.data).map asciiToLower = kv.1.data.map asciiToLower →
      consolidate_parent_org s = kv.2) := by
  constructor
  · intro s hne
    rw [consolidate_parent_org_def s] at hne ⊢
    rw [consolidate_parent_org_def]
    cases halook : alookup (pyTitle (pyStrip s)) PARENT_ORG_CONSOLIDATION with
    | none =>
      simp only [Option.getD_none]
      have hfix : pyTitle (pyStrip (pyTitle (pyStrip s))) = pyTitle (pyStrip s) := by
        rw [pyStrip_pyTitle_pyStrip]
        exact pyTitle_pyTitle_pyStrip s
      rw [hfix, halook]
      simp
    | some v =>
      rw [halook] at hne
      simp only [Option.getD_some] at hne ⊢
      have hv : (pyTitle (pyStrip s), v) ∈ PARENT_ORG_CONSOLIDATION := alookup_mem halook
      have hall : PARENT_ORG_CONSOLIDATION.all
          (fun p => p.2 == "CVS Health / Aetna" || consolidate_parent_org p.2 == p.2) = true := by
        decide
      have hthis := List.all_eq_true.mp hall _ hv
      rw [Bool.or_eq_true, beq_iff_eq, beq_iff_eq] at hthis
      rcases hthis with h1 | h2
      · exact absurd h1 hne
      · rw [consolidate_parent_org_def] at h2
        exact h2
  · intro s kv hkv hcase
    have htk : pyTitle (pyStrip s) = kv.1 := by
      have h1 : titleAux false (stripList s.data) = titleAux false kv.1.data :=
        titleAux_congr_lower false _ _ hcase
      have hfixall : PARENT_ORG_CONSOLIDATION.all (fun p => pyTitle p.1 == p.1) = true := by decide
      have h2 := List.all_eq_true.mp hfixall _ hkv
      rw [beq_iff_eq] at h2
      show String.mk (titleAux false (stripList s.data)) = kv.1
      rw [h1]
      exact h2
    have hnodup : (PARENT_ORG_CONSOLIDATION.map Prod.fst).Nodup := by decide
    have hkv2 : (kv.1, kv.2) ∈ PARENT_ORG_CONSOLIDATION := by
      rw [Prod.mk.eta]
      exact hkv
    have hl := alookup_of_mem_nodup hnodup hkv2
    rw [consolidate_parent_org_def, htk, hl]
    simp

/-- C3, witness for the amended theorem: idempotence at "Humana", and the
casing/whitespace invariance at the key "Aetna". -/
theorem C3_consolidator_witness :
    consolidate_parent_org (consolidate_parent_org "Humana") = consolidate_parent_org "Humana" ∧
    consolidate_parent_org "  aetna " = "CVS Health / Aetna" := by
  constructor
  · exact C3_consolidator_amended.1 "Humana" (by decide)
  · exact C3_consolidator_amended.2 "  aetna " ("Aetna", "CVS Health / Aetna")
      (by decide) (by decide)

theorem resolveEnrollment_def (cell : Option String) :
    resolveEnrollment cell =
      if (toNumeric (pyStrip (astypeStr cell))).isna && !(pyStrip (astypeStr cell) == "")
          && !(pyLower (pyStrip (astypeStr cell)) == "nan") then PdNum.val 5
      else toNumeric (pyStrip (astypeStr cell)) := rfl

theorem toNumeric_of_pyLower_nan {s : String} (h : pyLower s = "nan") :
    toNumeric s = PdNum.nan := by
  have hd : s.data.map asciiToLower = "nan".data := congrArg String.data h
  rw [toNumeric, hd]
  decide

theorem PdNum.isna_true_iff {x : PdNum} : x.isna = true ↔ x = PdNum.nan := by
  cases x <;> simp [PdNum.isna]

/-- C6: the Enrollment Suppression Resolver maps a raw value that parses as
a number to that numeric value, maps a non-empty value that fails numeric
parsing and is not a textual "nan" to the constant 5, and maps a truly
empty/missing value to null (NaN). -/
theorem C6_suppression_resolver (cell : Option String) :
    (∀ q : ℚ, toNumeric (pyStrip (astypeStr cell)) = PdNum.val q →
      resolveEnrollment cell = PdNum.val q) ∧
    ((toNumeric (pyStrip (astypeStr cell))).isna = true →
      pyStrip (astypeStr cell) ≠ "" → pyLower (pyStrip (astypeStr cell)) ≠ "nan" →
      resolveEnrollment cell = PdNum.val 5) ∧
    (cell = none ∨ pyStrip (astypeStr cell) = "" ∨ pyLower (pyStrip (astypeStr cell)) = "nan" →
      resolveEnrollment cell = PdNum.nan) := by
  refine ⟨?_, ?_, ?_⟩
  · intro q hq
    rw [resolveEnrollment_def, hq]
    simp [PdNum.isna]
  · intro hna hne hnan
    have hc : ((toNumeric (pyStrip (astypeStr cell))).isna && !(pyStrip (astypeStr cell) == "")
        && !(pyLower (pyStrip (astypeStr cell)) == "nan")) = true := by
      rw [hna]
      simp only [Bool.true_and, Bool.and_eq_true, Bool.not_eq_true', beq_eq_false_iff_ne]
      exact ⟨hne, hnan⟩
    rw [resolveEnrollment_def, if_pos hc]
  · intro h
    rcases h with h | h | h
    · rw [h]
      decide
    · rw [resolveEnrollment_def, h]
      decide
    · have ht := toNumeric_of_pyLower_nan h
      rw [resolveEnrollment_def, h, ht]
      simp

/-- C6, witness: "123" parses to 123, "*" is imputed to 5, a missing cell
stays null. -/
theorem C6_suppression_resolver_witness :
    resolveEnrollment (some "123") = PdNum.val 123 ∧
    resolveEnrollment (some "*") = PdNum.val 5 ∧
    resolveEnrollment none = PdNum.nan :=
  ⟨(C6_suppression_resolver (some "123")).1 123 (by decide),
   (C6_suppression_resolver (some "*")).2.1 (by decide) (by decide) (by decide),
   (C6_suppression_resolver none).2.2 (Or.inl rfl)⟩

/-- The three raw-input cases named by the spec: a parseable numeric string,
a suppressed marker (fails parsing, non-empty, not a textual "nan"), and an
empty/missing value. -/
inductive EnrollCase where
  | numericCase
  | suppressedCase
  | emptyCase
deriving DecidableEq

def enrollCaseOf (cell : Option String) : EnrollCase :=
  if (toNumeric (pyStrip (astypeStr cell))).isna = false then .numericCase
  else if pyStrip (astypeStr cell) ≠ "" ∧ pyLower (pyStrip (astypeStr cell)) ≠ "nan" then
    .suppressedCase
  else .emptyCase

theorem resolve_of_case (cell : Option String) :
    (enrollCaseOf cell = .numericCase →
      resolveEnrollment cell = toNumeric (pyStrip (astypeStr cell)) ∧
      (resolveEnrollment cell).isna = false) ∧
    (enrollCaseOf cell = .suppressedCase → resolveEnrollment cell = PdNum.val 5) ∧
    (enrollCaseOf cell = .emptyCase → resolveEnrollment cell = PdNum.nan) := by
  rw [enrollCaseOf]
  split
  · rename_i hcond
    refine ⟨fun _ => ?_, fun hcontra => by simp at hcontra, fun hcontra => by simp at hcontra⟩
    have hres : resolveEnrollment cell = toNumeric (pyStrip (astypeStr cell)) := by
      rw [resolveEnrollment_def, hcond]
      simp
    exact ⟨hres, by rw [hres]; exact hcond⟩
  · rename_i hcond1
    split
    · rename_i hcond2
      refine ⟨fun hcontra => by simp at hcontra, fun _ => ?_, fun hcontra => by simp at hcontra⟩
      have hna : (toNumeric (pyStrip (astypeStr cell))).isna = true := by
        cases hh : (toNumeric (pyStrip (astypeStr cell))).isna
        · exact absurd hh hcond1
        · rfl
      exact (C6_suppression_resolver cell).2.1 hna hcond2.1 hcond2.2
    · rename_i hcond2
      refine ⟨fun hcontra => by simp at hcontra, fun hcontra => by simp at hcontra, fun _ => ?_⟩
      rw [Decidable.not_and_iff_or_not, not_not, not_not] at hcond2
      rcases hcond2 with h | h
      · exact (C6_suppression_resolver cell).2.2 (Or.inr (Or.inl h))
      · exact (C6_suppression_resolver cell).2.2 (Or.inr (Or.inr h))

/-- C5, counterexample: after suppression resolution the numeric string "5"
and the suppressed marker "*" fall in different raw-input cases but produce
the identical output 5, so the case is not recoverable from the output. -/
theorem C5_distinguishability_counterexample :
    enrollCaseOf (some "5") = EnrollCase.numericCase ∧
    enrollCaseOf (some "*") = EnrollCase.suppressedCase ∧
    resolveEnrollment (some "5") = resolveEnrollment (some "*") := by decide

/-- C5, amended: two raw inputs in different cases produce different outputs,
provided neither is a numeric string whose value is exactly the imputation
constant 5 (a reported count of 5 is indistinguishable from a suppressed
marker; all other cross-case pairs remain distinguishable, with null meaning
not-reported and 5 meaning reported-as-suppressed). -/
theorem C5_distinguishability_amended (c1 c2 : Option String)
    (hne : enrollCaseOf c1 ≠ enrollCaseOf c2)
    (h1 : ∀ q : ℚ, enrollCaseOf c1 = EnrollCase.numericCase →
      resolveEnrollment c1 = PdNum.val q → q ≠ 5)
    (h2 : ∀ q : ℚ, enrollCaseOf c2 = EnrollCase.numericCase →
      resolveEnrollment c2 = PdNum.val q → q ≠ 5) :
    resolveEnrollment c1 ≠ resolveEnrollment c2 := by
  intro heq
  have L1 := resolve_of_case c1
  have L2 := resolve_of_case c2
  cases hc1 : enrollCaseOf c1 with
  | numericCase =>
    cases hc2 : enrollCaseOf c2 with
    | numericCase => exact hne (by rw [hc1, hc2])
    | suppressedCase =>
      have r2 : resolveEnrollment c2 = PdNum.val 5 := L2.2.1 hc2
      exact h1 5 hc1 (by rw [heq, r2]) rfl
    | emptyCase =>
      have r2 : resolveEnrollment c2 = PdNum.nan := L2.2.2 hc2
      have r1 : (resolveEnrollment c1).isna = false := (L1.1 hc1).2
      rw [heq, r2] at r1
      simp [PdNum.isna] at r1
  | suppressedCase =>
    cases hc2 : enrollCaseOf c2 with
    | numericCase =>
      have r1 : resolveEnrollment c1 = PdNum.val 5 := L1.2.1 hc1
      exact h2 5 hc2 (by rw [← heq, r1]) rfl
    | suppressedCase => exact hne (by rw [hc1, hc2])
    | emptyCase =>
      have r1 : resolveEnrollment c1 = PdNum.val 5 := L1.2.1 hc1
      have r2 : resolveEnrollment c2 = PdNum.nan := L2.2.2 hc2
      rw [r1, r2] at heq
      exact PdNum.noConfusion heq
  | emptyCase =>
    cases hc2 : enrollCaseOf c2 with
    | numericCase =>
      have r1 : resolveEnrollment c1 = PdNum.nan := L1.2.2 hc1
      have r2 : (resolveEnrollment c2).isna = false := (L2.1 hc2).2
      rw [← heq, r1] at r2
      simp [PdNum.isna] at r2
    | suppressedCase =>
      have r1 : resolveEnrollment c1 = PdNum.nan := L1.2.2 hc1
      have r2 : resolveEnrollment c2 = PdNum.val 5 := L2.2.1 hc2
      rw [r1, r2] at heq
      exact PdNum.noConfusion heq
    | emptyCase => exact hne (by rw [hc1, hc2])

/-- C5, witness: a reported count of 7 and a suppressed marker stay
distinguishable. -/
theorem C5_distinguishability_witness :
    resolveEnrollment (some "7") ≠ resolveEnrollment (some "*") := by
  apply C5_distinguishability_amended
  · decide
  · intro q _ hq
    have h7 : resolveEnrollment (some "7") = PdNum.val 7 := by decide
    rw [h7] at hq
    have hq7 : (7 : ℚ) = q := by injection hq
    rw [← hq7]
    norm_num
  · intro q hcase _
    have hstar : enrollCaseOf (some "*") = EnrollCase.suppressedCase := by decide
    rw [hstar] at hcase
    simp at hcase

/-- C10: a row with a missing (null) contract identifier derives the
contract type "Other", not a null: `astype(str)` turns the null into "nan",
stripping and upper-casing give "NAN", its first character "N" is not a key
of the five-entry code table, so the `fillna("Other")` default applies. -/
theorem C10_null_contract_type :
    derive_contract_type none = "Other" ∧
    pyUpper (pyStrip (astypeStr none)) = "NAN" ∧
    alookup "N" CONTRACT_TYPE_MAP = none ∧
    CONTRACT_TYPE_MAP.length = 5 := by decide

/-- The enrollment-role column-name patterns: an exact "ENROLLED" name, or a
name containing ENROLL, MEMBER or BENE without containing REPORT
(build_data.normalise lines 231-234 uses the ENROLLED/ENROLL forms;
dashboard.download_period lines 249-258 additionally MEMBER/BENE). -/
def enrollRolePattern (col : String) : Bool :=
  col == "ENROLLED" ||
    ((strContains col "ENROLL" || strContains col "MEMBER" || strContains col "BENE")
      && !(strContains col "REPORT"))

theorem renameStep_mem (ren : List (String × String)) (col : String) (p : String × String)
    (hp : p ∈ renameStep ren col) :
    p ∈ ren ∨ p.2 = "STATE" ∨ p.2 = "COUNTY" ∨ p.2 = "CONTRACT_ID" ∨ p.2 = "CONTRACT_NAME" ∨
      (p.2 = "ENROLLMENT" ∧ enrollRolePattern col = true) := by
  rw [renameStep] at hp
  split_ifs at hp with h1 h2 h3 h4 h5 h6 h7
  · exact Or.inl hp
  · rcases List.mem_append.mp hp with hm | hm
    · exact Or.inl hm
    · rw [List.mem_singleton] at hm
      rw [hm]
      exact Or.inr (Or.inl rfl)
  · rcases List.mem_append.mp hp with hm | hm
    · exact Or.inl hm
    · rw [List.mem_singleton] at hm
      rw [hm]
      exact Or.inr (Or.inr (Or.inl rfl))
  · rcases List.mem_append.mp hp with hm | hm
    · exact Or.inl hm
    · rw [List.mem_singleton] at hm
      rw [hm]
      exact Or.inr (Or.inr (Or.inr (Or.inl rfl)))
  · rcases List.mem_append.mp hp with hm | hm
    · exact Or.inl hm
    · rw [List.mem_singleton] at hm
      rw [hm]
      exact Or.inr (Or.inr (Or.inr (Or.inr (Or.inl rfl))))
  · rcases List.mem_append.mp hp with hm | hm
    · exact Or.inl hm
    · rw [List.mem_singleton] at hm
      rw [hm]
      refine Or.inr (Or.inr (Or.inr (Or.inr (Or.inr ⟨rfl, ?_⟩))))
      rw [Bool.and_eq_true] at h6
      rw [enrollRolePattern, Bool.or_eq_true]
      left
      have : col = "ENROLLED" := by
        have := h6.1
        simpa using this
      rw [this]
      rfl
  · rcases List.mem_append.mp hp with hm | hm
    · exact Or.inl hm
    · rw [List.mem_singleton] at hm
      rw [hm]
      refine Or.inr (Or.inr (Or.inr (Or.inr (Or.inr ⟨rfl, ?_⟩))))
      rw [Bool.and_eq_true, Bool.and_eq_true] at h7
      rw [enrollRolePattern, Bool.or_eq_true, Bool.and_eq_true]
      right
      refine ⟨by rw [Bool.or_eq_true, Bool.or_eq_true]; exact Or.inl (Or.inl h7.1.1), h7.1.2⟩
  · exact Or.inl hp

theorem foldl_renameStep_no_enrollment : ∀ (cols : List String) (ren0 : List (String × String)),
    (∀ c ∈ cols, enrollRolePattern c = false) →
    (∀ p ∈ ren0, p.2 ≠ "ENROLLMENT") →
    ∀ p ∈ cols.foldl renameStep ren0, p.2 ≠ "ENROLLMENT" := by
  intro cols
  induction cols with
  | nil =>
    intro ren0 _ h0 p hp
    exact h0 p hp
  | cons c t ih =>
    intro ren0 hcols h0 p hp
    rw [List.foldl_cons] at hp
    refine ih (renameStep ren0 c) (fun x hx => hcols x (List.mem_cons_of_mem _ hx)) ?_ p hp
    intro q hq
    rcases renameStep_mem ren0 c q hq with hm | hm | hm | hm | hm | hm
    · exact h0 q hm
    · rw [hm]; decide
    · rw [hm]; decide
    · rw [hm]; decide
    · rw [hm]; decide
    · have := hcols c (List.mem_cons_self c t)
      rw [this] at hm
      exact absurd hm.2 (by simp)

theorem renameMap_no_enrollment (cols : List String)
    (h : ∀ c ∈ cols, enrollRolePattern c = false) :
    ∀ p ∈ renameMap cols, p.2 ≠ "ENROLLMENT" :=
  foldl_renameStep_no_enrollment cols [] h (by intro p hp; simp at hp)

/-- C1, counterexample: on a table with no enrollment-like column,
`normalise` fails with the KeyError of `df[keep]` (keep unconditionally
includes "ENROLLMENT") instead of producing a record with a null-valued
enrollment field. -/
theorem C1_schema_normalizer_counterexample :
    normalise { cols := ["STATE", "COUNTY"], cells := [[some "AK", some "Anchorage"]] } "2024-01"
      = Except.error "KeyError" ∧
    (normalise { cols := ["STATE", "COUNTY"],
                 cells := [[some "AK", some "Anchorage"]] } "2024-01").isOk = false :=
  ⟨rfl, rfl⟩

/-- C1, amended: for every RawTable in which no column name matches an
enrollment-role pattern, `normalise` does NOT return a PeriodRecord: the
final `df[keep]` column selection always requests "ENROLLMENT" and raises a
KeyError, so the whole call fails. -/
theorem C1_schema_normalizer_amended (tbl : RawTable) (period : String)
    (h : ∀ c ∈ tbl.cols, enrollRolePattern c = false) :
    normalise tbl period = Except.error "KeyError" := by
  have hnoe : ∀ c ∈ tbl.cols,
      ((alookup c (renameMap tbl.cols)).getD c) ≠ "ENROLLMENT" := by
    intro c hc
    cases hl : alookup c (renameMap tbl.cols) with
    | none =>
      simp only [Option.getD_none]
      intro hcontra
      have hpat := h c hc
      rw [hcontra] at hpat
      exact absurd hpat (by decide)
    | some v =>
      simp only [Option.getD_some]
      have hv : (c, v) ∈ renameMap tbl.cols := alookup_mem hl
      exact renameMap_no_enrollment tbl.cols h (c, v) hv
  have hnotmem : "ENROLLMENT" ∉
      ("REPORT_PERIOD" :: tbl.cols.map fun c => (alookup c (renameMap tbl.cols)).getD c) := by
    intro hmem
    rcases List.mem_cons.mp hmem with hmem | hmem
    · exact absurd hmem (by decide)
    · rcases List.mem_map.mp hmem with ⟨c, hc, hcv⟩
      exact hnoe c hc hcv
  have hcont : (("REPORT_PERIOD" :: tbl.cols.map fun c =>
      (alookup c (renameMap tbl.cols)).getD c).contains "ENROLLMENT") = false := by
    simpa using hnotmem
  have hall : ((keepCols ("REPORT_PERIOD" :: tbl.cols.map fun c =>
      (alookup c (renameMap tbl.cols)).getD c)).all
      (fun k => ("REPORT_PERIOD" :: tbl.cols.map fun c =>
        (alookup c (renameMap tbl.cols)).getD c).contains k)) = false := by
    rw [List.all_eq_false]
    refine ⟨"ENROLLMENT", ?_, ?_⟩
    · rw [keepCols]
      exact List.mem_cons_of_mem _ (List.mem_cons_self _ _)
    · rw [hcont]
      simp
  simp only [normalise]
  rw [hall]
  simp

/-- C1, witness for the amended theorem at a second concrete table. -/
theorem C1_schema_normalizer_witness :
    normalise { cols := ["STATE"], cells := [] } "2024-02" = Except.error "KeyError" :=
  C1_schema_normalizer_amended _ _ (by decide)

theorem filter_key_length_le_one : ∀ (l : List (String × String)),
    (l.map Prod.fst).Nodup → ∀ k : String, (l.filter fun p => p.1 = k).length ≤ 1 := by
  intro l
  induction l with
  | nil =>
    intro _ k
    simp
  | cons c t ih =>
    intro hnd k
    rw [List.map_cons, List.nodup_cons] at hnd
    rw [List.filter_cons]
    split
    · rename_i hck
      have hck2 : c.1 = k := by simpa using hck
      have ht : (t.filter fun p => p.1 = k) = [] := by
        rw [List.filter_eq_nil_iff]
        intro p hp
        simp only [decide_eq_true_eq]
        intro hpk
        apply hnd.1
        rw [hck2, ← hpk]
        exact List.mem_map_of_mem Prod.fst hp
      simp [ht]
    · exact ih hnd.2 k

theorem leftMergeRow_length_one (lookup : List (String × String)) (cid : String)
    (hnd : (lookup.map Prod.fst).Nodup) : (leftMergeRow lookup cid).length = 1 := by
  rw [leftMergeRow]
  cases hf : lookup.filter (fun p => p.1 = cid) with
  | nil => rfl
  | cons m ms =>
    have hle := filter_key_length_le_one lookup hnd cid
    rw [hf] at hle
    simp only [List.length_cons] at hle
    have hms : ms = [] := by
      rw [← List.length_eq_zero]
      omega
    rw [hms]
    rfl

/-- C4, counterexample: the directory is deduplicated on the RAW contract id
before the id is normalized, so two raw variants of the same id ("H1234" and
"h1234") survive deduplication, normalize to the same key, and the left join
then produces two output rows from one enrollment row — the joined row count
exceeds the enrollment-side row count. -/
theorem C4_join_counterexample :
    ([({ report_period := "2024-01", enrollment := PdNum.val 1,
         contract_id := some "H1234" } : ERow)]).length = 1 ∧
    plan_dir_lookup
        [{ contract_id := some "H1234", parent_organization := some "Humana" },
         { contract_id := some "h1234", parent_organization := some "Humana" }]
      = [("H1234", "Humana"), ("H1234", "Humana")] ∧
    (buildCombined
        [({ report_period := "2024-01", enrollment := PdNum.val 1,
            contract_id := some "H1234" } : ERow)]
        (plan_dir_lookup
          [{ contract_id := some "H1234", parent_organization := some "Humana" },
           { contract_id := some "h1234", parent_organization := some "Humana" }])).length
      = 2 := by decide

/-- C4, amended: whenever the NORMALIZED contract ids of the deduplicated
directory lookup are pairwise distinct (deduplication alone does not
guarantee this, since it happens on the raw ids before normalization), the
left join produces exactly one output row per enrollment row — the row count
is preserved — and every output row's CONTRACT_ID is the (cleaned)
contract id of its enrollment row, preserved through the join. -/
theorem buildCombined_cons (r : ERow) (t : List ERow) (planDir : List (String × String))
    (hemp : planDir.isEmpty = false) :
    buildCombined (r :: t) planDir =
      ((leftMergeRow planDir (clean_contract_id (astypeStr r.contract_id))).map fun par =>
        ({ report_period := r.report_period, enrollment := r.enrollment,
           contract_id := some (clean_contract_id (astypeStr r.contract_id)),
           parent_organization := par,
           contract_type :=
             derive_contract_type (some (clean_contract_id (astypeStr r.contract_id))) } : CRow))
        ++ buildCombined t planDir := by
  rw [buildCombined, buildCombined, hemp]
  simp

theorem C4_join_amended (rows : List ERow) (entries : List DirEntry)
    (hnd : ((plan_dir_lookup entries).map Prod.fst).Nodup)
    (hne : plan_dir_lookup entries ≠ []) :
    (buildCombined rows (plan_dir_lookup entries)).length = rows.length ∧
    ((buildCombined rows (plan_dir_lookup entries)).map fun r => r.contract_id)
      = rows.map fun r => some (clean_contract_id (astypeStr r.contract_id)) := by
  have hemp : (plan_dir_lookup entries).isEmpty = false := by
    cases hplan : plan_dir_lookup entries with
    | nil => exact absurd hplan hne
    | cons a b => rfl
  induction rows with
  | nil =>
    constructor <;> simp [buildCombined, hemp]
  | cons r t ih =>
    obtain ⟨ih1, ih2⟩ := ih
    have hone := leftMergeRow_length_one (plan_dir_lookup entries)
      (clean_contract_id (astypeStr r.contract_id)) hnd
    obtain ⟨par, hpar⟩ : ∃ par, leftMergeRow (plan_dir_lookup entries)
        (clean_contract_id (astypeStr r.contract_id)) = [par] :=
      List.length_eq_one.mp hone
    rw [buildCombined_cons r t _ hemp, hpar]
    constructor
    · rw [List.length_append, ih1]
      simp
      omega
    · rw [List.map_append, ih2]
      simp

/-- C4, witness for the amended theorem: a two-entry directory with distinct
normalized ids joined against two enrollment rows preserves the row count
and the contract ids. -/
theorem C4_join_witness :
    (buildCombined
        [({ report_period := "2024-01", enrollment := PdNum.val 1,
            contract_id := some "H1234" } : ERow),
         ({ report_period := "2024-01", enrollment := PdNum.val 2,
            contract_id := some "X9" } : ERow)]
        (plan_dir_lookup
          [{ contract_id := some "H1234", parent_organization := some "Humana" },
           { contract_id := some "R5555", parent_organization := some "Aetna" }])).length = 2 ∧
    ((buildCombined
        [({ report_period := "2024-01", enrollment := PdNum.val 1,
            contract_id := some "H1234" } : ERow),
         ({ report_period := "2024-01", enrollment := PdNum.val 2,
            contract_id := some "X9" } : ERow)]
        (plan_dir_lookup
          [{ contract_id := some "H1234", parent_organization := some "Humana" },
           { contract_id := some "R5555", parent_organization := some "Aetna" }])).map
        fun r => r.contract_id) = [some "H1234", some "X9"] := by
  have h := C4_join_amended
    [({ report_period := "2024-01", enrollment := PdNum.val 1,
        contract_id := some "H1234" } : ERow),
     ({ report_period := "2024-01", enrollment := PdNum.val 2,
        contract_id := some "X9" } : ERow)]
    [{ contract_id := some "H1234", parent_organization := some "Humana" },
     { contract_id := some "R5555", parent_organization := some "Aetna" }]
    (by decide) (by decide)
  exact ⟨h.1, by rw [h.2]; decide⟩

/-- C9: when directory loading fails entirely, the pipeline still produces
the combined dataset: the empty lookup skips the join, every enrollment row
survives with its period, enrollment and contract id unchanged, every row's
parent organization is null, and CONTRACT_TYPE is still derived from the
first character of the contract identifier via the fixed code table. -/
theorem C9_directory_failure (rows : List ERow) :
    (buildCombined rows []).length = rows.length ∧
    (∀ r ∈ buildCombined rows [], r.parent_organization = none ∧
      r.contract_type = derive_contract_type r.contract_id) ∧
    ((buildCombined rows []).map fun r => (r.report_period, r.enrollment, r.contract_id))
      = rows.map fun r => (r.report_period, r.enrollment, r.contract_id) := by
  refine ⟨?_, ?_, ?_⟩
  · simp [buildCombined]
  · intro r hr
    simp only [buildCombined, List.isEmpty_nil, if_true] at hr
    rcases List.mem_map.mp hr with ⟨e, _, he⟩
    rw [← he]
    exact ⟨rfl, rfl⟩
  · simp only [buildCombined, List.isEmpty_nil, if_true, List.map_map]
    rfl

/-- C9, witness at a concrete run: one enrollment row with contract id
"H1234"; the combined row keeps the row count, has a null parent
organization, and the code table classifies "H" correctly. -/
theorem C9_directory_failure_witness :
    (buildCombined [({ report_period := "2024-01", enrollment := PdNum.val 7,
                       contract_id := some "H1234" } : ERow)] []).length = 1 ∧
    ({ report_period := "2024-01", enrollment := PdNum.val 7, contract_id := some "H1234",
       parent_organization := none,
       contract_type := "Local MA / HMO / Cost / PACE" } : CRow).parent_organization = none := by
  constructor
  · exact (C9_directory_failure _).1
  · exact ((C9_directory_failure [({ report_period := "2024-01", enrollment := PdNum.val 7,
                                     contract_id := some "H1234" } : ERow)]).2.1 _ (by decide)).1

theorem PdNum.sub_val (a b : ℚ) :
    PdNum.sub (PdNum.val a) (PdNum.val b) = PdNum.val (a - b) := by
  simp [PdNum.sub, PdNum.neg, PdNum.add, sub_eq_add_neg]

theorem PdNum.div_val {a b : ℚ} (hb : b ≠ 0) :
    PdNum.div (PdNum.val a) (PdNum.val b) = PdNum.val (a / b) := by
  simp [PdNum.div, hb]

theorem PdNum.scale_val (k a : ℚ) : PdNum.scale k (PdNum.val a) = PdNum.val (a * k) := rfl

theorem momTable_mem {rows : List CRow} {g : CRow → Option String} {latest previous : String}
    {mrow : MomRow} (hm : mrow ∈ momTable rows g latest previous) :
    ∃ k c p, groupSum rows g latest k = some c ∧ groupSum rows g previous k = some p ∧
      c.isna = false ∧ p.isna = false ∧
      mrow = { key := k, previous := p, current := c, change := PdNum.sub c p,
               change_pct := (PdNum.scale 100 (PdNum.div (PdNum.sub c p) p)).round2 } := by
  rw [momTable] at hm
  rcases List.mem_filterMap.mp hm with ⟨k, hk, hsome⟩
  cases hgl : groupSum rows g latest k with
  | none =>
    rw [hgl] at hsome
    simp at hsome
  | some c =>
    cases hgp : groupSum rows g previous k with
    | none =>
      rw [hgl, hgp] at hsome
      simp at hsome
    | some p =>
      rw [hgl, hgp] at hsome
      simp only at hsome
      split at hsome
      · exact absurd hsome (by simp)
      · rename_i hna
        rw [Bool.not_eq_true, Bool.or_eq_false_iff] at hna
        rw [Option.some.injEq] at hsome
        exact ⟨k, c, p, hgl, hgp, hna.1, hna.2, hsome.symm⟩

/-- C2, counterexample: in the dimensional (per-group) comparison table a
row whose baseline is exactly zero reports a numeric infinity in CHANGE_%,
not an absent value: with current=3 and baseline=0 the code computes
3/0*100 = +inf. -/
theorem C2_zero_baseline_counterexample :
    momTable
        [({ report_period := "2024-02", enrollment := PdNum.val 3, contract_id := some "H1",
            parent_organization := some "A", contract_type := "T" } : CRow),
         ({ report_period := "2024-01", enrollment := PdNum.val 0, contract_id := some "H1",
            parent_organization := some "A", contract_type := "T" } : CRow)]
        (fun r => r.parent_organization) "2024-02" "2024-01"
      = [{ key := "A", previous := PdNum.val 0, current := PdNum.val 3,
           change := PdNum.val 3, change_pct := PdNum.pinf }] := by
  norm_num [momTable, groupKeys, groupSum, pdSum, enrollSumForPeriod,
    List.filterMap_cons, List.dedup_cons_of_mem, List.dedup_cons_of_not_mem,
    List.filter_cons, PdNum.add, PdNum.isna, PdNum.sub,
    PdNum.neg, PdNum.div, PdNum.scale, PdNum.round2,
    show ("2024-01" : String) ≠ "2024-02" from by decide,
    show ("2024-02" : String) ≠ "2024-01" from by decide]

/-- C2, amended: the aggregate KPI computation reports the percentage (and
the delta) as absent when the baseline sum is exactly zero, and reports the
correctly signed delta and percentage when the baseline is non-zero; but the
dimensional comparison table guards nothing: a row with zero baseline gets
+inf (current > 0), -inf (current < 0) or NaN (current = 0) in CHANGE_%,
and only rows with non-zero baseline get the correct rounded percentage. -/
theorem C2_comparison_amended (rows : List CRow) (latest prevp : String)
    (g : CRow → Option String) :
    (enrollSumForPeriod rows prevp = PdNum.val 0 →
      kpiMomPct rows latest (some prevp) = none ∧
      kpiMomDelta rows latest (some prevp) = none) ∧
    (∀ l b : ℚ, b ≠ 0 → enrollSumForPeriod rows latest = PdNum.val l →
      enrollSumForPeriod rows prevp = PdNum.val b →
      kpiMomDelta rows latest (some prevp) = some (PdNum.val (l - b)) ∧
      kpiMomPct rows latest (some prevp) = some (PdNum.val ((l - b) / b * 100))) ∧
    (∀ mrow ∈ momTable rows g latest prevp, ∀ c p : ℚ,
      mrow.current = PdNum.val c → mrow.previous = PdNum.val p →
      mrow.change = PdNum.val (c - p) ∧
      (p = 0 → 0 < c → mrow.change_pct = PdNum.pinf) ∧
      (p = 0 → c < 0 → mrow.change_pct = PdNum.ninf) ∧
      (p = 0 → c = 0 → mrow.change_pct = PdNum.nan) ∧
      (p ≠ 0 → mrow.change_pct = (PdNum.val ((c - p) / p * 100)).round2)) := by
  refine ⟨?_, ?_, ?_⟩
  · intro h
    constructor
    · rw [kpiMomPct]
      simp [kpiPreviousEnroll, h, pdTruthy]
    · rw [kpiMomDelta]
      simp [kpiPreviousEnroll, h, pdTruthy]
  · intro l b hb hl hp
    have htr : pdTruthy (kpiPreviousEnroll rows (some prevp)) = true := by
      simp [kpiPreviousEnroll, hp, pdTruthy, hb]
    have hdelta : kpiMomDelta rows latest (some prevp) = some (PdNum.val (l - b)) := by
      rw [kpiMomDelta]
      simp only [htr, if_true]
      rw [hl]
      simp only [kpiPreviousEnroll, hp, Option.getD_some]
      rw [PdNum.sub_val]
    refine ⟨hdelta, ?_⟩
    rw [kpiMomPct]
    simp only [htr, if_true, hdelta, Option.getD_some]
    simp only [kpiPreviousEnroll, hp, Option.getD_some]
    rw [PdNum.div_val hb, PdNum.scale_val]
  · intro mrow hm c p hc hp
    obtain ⟨k, c0, p0, hgl, hgp, hcna, hpna, hrow⟩ := momTable_mem hm
    subst hrow
    simp only at hc hp
    subst hc
    subst hp
    refine ⟨by simp [PdNum.sub_val], ?_, ?_, ?_, ?_⟩
    · intro hp0 hcpos
      subst hp0
      simp only [PdNum.sub_val, sub_zero]
      rw [show PdNum.div (PdNum.val c) (PdNum.val 0) = PdNum.pinf by
        simp [PdNum.div, hcpos]]
      rw [show PdNum.scale 100 PdNum.pinf = PdNum.pinf by norm_num [PdNum.scale]]
      rfl
    · intro hp0 hcneg
      subst hp0
      simp only [PdNum.sub_val, sub_zero]
      rw [show PdNum.div (PdNum.val c) (PdNum.val 0) = PdNum.ninf by
        simp [PdNum.div, hcneg, asymm hcneg]]
      rw [show PdNum.scale 100 PdNum.ninf = PdNum.ninf by norm_num [PdNum.scale]]
      rfl
    · intro hp0 hc0
      subst hp0
      subst hc0
      simp only [PdNum.sub_val, sub_zero]
      rw [show PdNum.div (PdNum.val 0) (PdNum.val 0) = PdNum.nan by
        simp [PdNum.div]]
      rw [show PdNum.scale 100 PdNum.nan = PdNum.nan by simp [PdNum.scale]]
      rfl
    · intro hpne
      rw [PdNum.sub_val, PdNum.div_val hpne, PdNum.scale_val]

/-- C2, witness: current=120 vs baseline=100 gives delta +20 and +20.00%,
through the amended theorem's non-zero-baseline clause. -/
theorem C2_comparison_witness :
    kpiMomDelta
        [({ report_period := "2024-02", enrollment := PdNum.val 120, contract_id := some "H1",
            parent_organization := some "A", contract_type := "T" } : CRow),
         ({ report_period := "2024-01", enrollment := PdNum.val 100, contract_id := some "H1",
            parent_organization := some "A", contract_type := "T" } : CRow)]
        "2024-02" (some "2024-01") = some (PdNum.val 20) ∧
    kpiMomPct
        [({ report_period := "2024-02", enrollment := PdNum.val 120, contract_id := some "H1",
            parent_organization := some "A", contract_type := "T" } : CRow),
         ({ report_period := "2024-01", enrollment := PdNum.val 100, contract_id := some "H1",
            parent_organization := some "A", contract_type := "T" } : CRow)]
        "2024-02" (some "2024-01") = some (PdNum.val 20) := by
  have h := (C2_comparison_amended
      [({ report_period := "2024-02", enrollment := PdNum.val 120, contract_id := some "H1",
          parent_organization := some "A", contract_type := "T" } : CRow),
       ({ report_period := "2024-01", enrollment := PdNum.val 100, contract_id := some "H1",
          parent_organization := some "A", contract_type := "T" } : CRow)]
      "2024-02" "2024-01" (fun r => r.parent_organization)).2.1
      120 100 (by norm_num)
      (by norm_num [enrollSumForPeriod, pdSum, List.filter_cons, PdNum.add, PdNum.isna,
        show ("2024-01" : String) ≠ "2024-02" from by decide,
        show ("2024-02" : String) ≠ "2024-01" from by decide])
      (by norm_num [enrollSumForPeriod, pdSum, List.filter_cons, PdNum.add, PdNum.isna,
        show ("2024-01" : String) ≠ "2024-02" from by decide,
        show ("2024-02" : String) ≠ "2024-01" from by decide])
  constructor
  · rw [h.1]
    norm_num
  · rw [h.2]
    norm_num

theorem attemptCombo_two_cols {bs : List Nat} {e : Enc} {s : Char} {t : ParsedCsv}
    (h : attemptCombo bs e s = some t) : 2 ≤ t.header.length := by
  rw [attemptCombo] at h
  cases hd : decodeBytes e bs with
  | none =>
    rw [hd] at h
    simp at h
  | some chars =>
    rw [hd] at h
    dsimp only at h
    cases hp : parseCsv chars s with
    | none =>
      rw [hp] at h
      simp at h
    | some t0 =>
      rw [hp] at h
      dsimp only at h
      split at h
      · rename_i hcond
        rw [Option.some.injEq] at h
        rw [← h]
        exact hcond
      · exact absurd h (by simp)

theorem fetchLoop_none_iff (bs : List Nat) : ∀ l : List (Enc × Char),
    fetchLoop bs l = none ↔ ∀ c ∈ l, attemptCombo bs c.1 c.2 = none := by
  intro l
  induction l with
  | nil => simp [fetchLoop]
  | cons c rest ih =>
    rw [fetchLoop]
    cases ha : attemptCombo bs c.1 c.2 with
    | some t =>
      constructor
      · intro h
        exact absurd h (by simp)
      · intro h
        exact absurd (h c (List.mem_cons_self c rest)) (by rw [ha]; simp)
    | none =>
      constructor
      · intro h x hx
        rcases List.mem_cons.mp hx with hx | hx
        · rw [hx]
          exact ha
        · exact (ih.mp h) x hx
      · intro h
        exact ih.mpr fun x hx => h x (List.mem_cons_of_mem c hx)

theorem fetchLoop_first (bs : List Nat) : ∀ (l : List (Enc × Char)) (e : Enc) (s : Char)
    (t : ParsedCsv), fetchLoop bs l = some (e, s, t) →
    attemptCombo bs e s = some t ∧
    ∃ i, ∃ h : i < l.length, l.get ⟨i, h⟩ = (e, s) ∧
      ∀ j, ∀ hj : j < l.length, j < i →
        attemptCombo bs (l.get ⟨j, hj⟩).1 (l.get ⟨j, hj⟩).2 = none := by
  intro l
  induction l with
  | nil =>
    intro e s t h
    rw [fetchLoop] at h
    exact absurd h (by simp)
  | cons c rest ih =>
    intro e s t h
    rw [fetchLoop] at h
    cases ha : attemptCombo bs c.1 c.2 with
    | some t0 =>
      rw [ha] at h
      simp only [Option.some.injEq] at h
      obtain ⟨h1, h2, h3⟩ : c.1 = e ∧ c.2 = s ∧ t0 = t := by
        have hfst := congrArg Prod.fst h
        have hsnd := congrArg Prod.snd h
        simp only at hfst hsnd
        exact ⟨hfst, congrArg Prod.fst hsnd, congrArg Prod.snd hsnd⟩
      refine ⟨by rw [← h1, ← h2, ha, h3], 0, by simp, ?_, ?_⟩
      · simp only [List.get]
        rw [← h1, ← h2]
      · intro j hj hj0
        omega
    | none =>
      rw [ha] at h
      obtain ⟨hat, i, hi, hget, hprev⟩ := ih e s t h
      refine ⟨hat, i + 1, by simpa using hi, by simpa using hget, ?_⟩
      intro j hj hj0
      cases j with
      | zero => simpa using ha
      | succ j0 =>
        have hj0lt : j0 < rest.length := by
          simp only [List.length_cons] at hj
          omega
        have := hprev j0 hj0lt (by omega)
        simpa using this

/-- C7, counterexample: a genuine pipe-separated Windows-1252 input (bytes
`A|B\n\x93x|y\n`, where 0x93 is a valid cp1252 quote but an invalid UTF-8
start byte) does NOT resolve to the cp1252 encoding: Latin-1 decoding
accepts every byte sequence and is tried first, so the loop returns the
Latin-1/pipe pair and cp1252 is unreachable. -/
theorem C7_decoder_counterexample :
    ((fetchZipDfLoop [65, 124, 66, 10, 147, 120, 124, 121, 10]).map fun r => (r.1, r.2.1))
      = some (Enc.latin1, '|') ∧ Enc.latin1 ≠ Enc.cp1252 := by decide

/-- C7, amended: the decoder tries the nine (encoding, delimiter)
combinations in the fixed order utf-8-sig/latin-1/cp1252 by
comma/tab/pipe, returns the first combination that decodes and parses into
at least two columns (a one-column parse is never accepted), and fails only
when every combination fails; a comma-separated UTF-8 fixture resolves to
(utf-8-sig, comma) and a tab-separated Latin-1 fixture to (latin-1, tab),
but a pipe-separated Windows-1252 fixture resolves to (latin-1, pipe) — the
correct delimiter under the earlier Latin-1 encoding, never cp1252. -/
theorem C7_decoder_amended (bs : List Nat) :
    (∀ e s t, fetchZipDfLoop bs = some (e, s, t) → 2 ≤ t.header.length) ∧
    (fetchZipDfLoop bs = none ↔ ∀ c ∈ comboOrder, attemptCombo bs c.1 c.2 = none) ∧
    (∀ e s t, fetchZipDfLoop bs = some (e, s, t) →
      attemptCombo bs e s ≠ none ∧
      ∃ i, ∃ h : i < comboOrder.length, comboOrder.get ⟨i, h⟩ = (e, s) ∧
        ∀ j, ∀ hj : j < comboOrder.length, j < i →
          attemptCombo bs (comboOrder.get ⟨j, hj⟩).1 (comboOrder.get ⟨j, hj⟩).2 = none) ∧
    comboOrder = [(Enc.utf8sig, ','), (Enc.utf8sig, '\t'), (Enc.utf8sig, '|'),
      (Enc.latin1, ','), (Enc.latin1, '\t'), (Enc.latin1, '|'),
      (Enc.cp1252, ','), (Enc.cp1252, '\t'), (Enc.cp1252, '|')] ∧
    ((fetchZipDfLoop [65, 44, 66, 10, 120, 44, 121, 10]).map fun r => (r.1, r.2.1))
      = some (Enc.utf8sig, ',') ∧
    ((fetchZipDfLoop [65, 9, 66, 10, 233, 9, 122, 10]).map fun r => (r.1, r.2.1))
      = some (Enc.latin1, '\t') ∧
    ((fetchZipDfLoop [65, 124, 66, 10, 147, 120, 124, 121, 10]).map fun r => (r.1, r.2.1))
      = some (Enc.latin1, '|') := by
  refine ⟨?_, ?_, ?_, by decide, by decide, by decide, by decide⟩
  · intro e s t h
    rw [fetchZipDfLoop] at h
    cases hl : fetchLoop bs comboOrder with
    | none =>
      rw [hl] at h
      exact absurd h (by simp)
    | some r =>
      rw [hl] at h
      simp only [Option.map_some'] at h
      rw [Option.some.injEq] at h
      have hr : fetchLoop bs comboOrder = some (r.1, r.2.1, r.2.2) := by
        rw [hl]
      have hat := (fetchLoop_first bs comboOrder r.1 r.2.1 r.2.2 hr).1
      have hlen := attemptCombo_two_cols hat
      have ht : t = { header := r.2.2.header.map normalizeCol, rows := r.2.2.rows } := by
        have := congrArg Prod.snd h
        simp only at this
        exact (congrArg Prod.snd this).symm
      rw [ht]
      simpa using hlen
  · rw [fetchZipDfLoop]
    rw [Option.map_eq_none']
    exact fetchLoop_none_iff bs comboOrder
  · intro e s t h
    rw [fetchZipDfLoop] at h
    cases hl : fetchLoop bs comboOrder with
    | none =>
      rw [hl] at h
      exact absurd h (by simp)
    | some r =>
      rw [hl] at h
      simp only [Option.map_some'] at h
      rw [Option.some.injEq] at h
      have hr : fetchLoop bs comboOrder = some (r.1, r.2.1, r.2.2) := by
        rw [hl]
      obtain ⟨hat, i, hi, hget, hprev⟩ := fetchLoop_first bs comboOrder r.1 r.2.1 r.2.2 hr
      have he : r.1 = e := congrArg Prod.fst h
      have hs : r.2.1 = s := by
        have := congrArg Prod.snd h
        simp only at this
        exact congrArg Prod.fst this
      rw [he, hs] at hat hget
      exact ⟨by rw [hat]; simp, i, hi, hget, hprev⟩

/-- C7, witness: the amended theorem applied at the comma-separated UTF-8
fixture, whose accepted parse indeed has two columns. -/
theorem C7_decoder_witness :
    2 ≤ (ParsedCsv.mk ["A", "B"] [["x", "y"]]).header.length :=
  (C7_decoder_amended [65, 44, 66, 10, 120, 44, 121, 10]).1 Enc.utf8sig ','
    (ParsedCsv.mk ["A", "B"] [["x", "y"]]) (by decide)

/-- C8: the Archive Extractor selects `data.csv` from an archive holding
only `README.txt` and `data.csv`, fails on an archive holding only
`README.txt`, and — whenever the primary candidate filter yields zero
candidates — falls back to the pass that excludes only names containing
"read" (still restricted to non-directory `.csv`/`.txt` members), then
selects the first candidate matching the preferred-name pattern, else the
first candidate in archive order. -/
theorem C8_archive_extractor :
    selectDataFile ["README.txt", "data.csv"] = some "data.csv" ∧
    selectDataFile ["README.txt"] = none ∧
    (∀ names : List String, primaryCandidates names = [] →
      (selectDataFile names = none ↔ fallbackCandidates names = []) ∧
      ∀ c rest, fallbackCandidates names = c :: rest →
        selectDataFile names = some ((((c :: rest).filter dataRe).head?).getD c)) := by
  refine ⟨by decide, by decide, ?_⟩
  intro names hprim
  have hsel : selectDataFile names =
      (if (fallbackCandidates names).isEmpty then none
       else match (fallbackCandidates names).filter dataRe with
            | [] => (fallbackCandidates names).head?
            | p :: _ => some p) := by
    rw [selectDataFile, hprim]
    simp
  constructor
  · constructor
    · intro hn
      cases hf : fallbackCandidates names with
      | nil => rfl
      | cons c rest =>
        rw [hsel, hf] at hn
        simp only [List.isEmpty_cons, Bool.false_eq_true, if_false] at hn
        split at hn
        · exact absurd hn (by simp)
        · exact absurd hn (by simp)
    · intro hf
      rw [hsel, hf]
      rfl
  · intro c rest hf
    rw [hsel, hf]
    simp only [List.isEmpty_cons, Bool.false_eq_true, if_false]
    cases hfr : (c :: rest).filter dataRe with
    | nil => simp
    | cons p ps => simp

/-- C8, witness: an archive whose only data file sits inside a `__MACOSX`
folder defeats the primary filter, and the relaxed fallback still recovers
it. -/
theorem C8_archive_extractor_witness :
    selectDataFile ["__MACOSX/data.csv"] = some "__MACOSX/data.csv" := by
  have h := (C8_archive_extractor.2.2 ["__MACOSX/data.csv"] (by decide)).2
    "__MACOSX/data.csv" [] (by decide)
  rw [h]
  decide
